import Mathlib

/-!
Verification of `src/skills/gog-calendar/scripts/fetch_events.py`.

The script is a small orchestrator: it builds `gog calendar events`
command lines for a personal account, a work account and optional extra
calendars, runs them as concurrent subprocesses, and prints each target's
captured stdout under a fixed section marker, in a fixed order.

Embedding choices:
- A subprocess invocation is modelled as an oracle
  `run : List String → ProcResult`, mapping the full argument vector to
  either a completed process (captured stdout, captured stderr, return
  code) or an exception raised while launching the process (Python
  `subprocess.run` raises e.g. `FileNotFoundError`; the exception is
  stored in the future and re-raised by `future.result()`, crashing the
  script).
- Standard output / standard error are modelled as the list of strings
  passed to `print` on each stream, in order (each `print` appends a
  final newline, see `stdoutText`).
- The thread pool is modelled twice: `mainRun` resolves each future
  directly (the value a future eventually holds), while `mainRunOrdered`
  additionally takes an arbitrary completion order for the submitted
  tasks and fills a result table in that order before the print phase
  reads it back in slot order.
-/

set_option maxRecDepth 8192

namespace FetchEvents

/-- Outcome of one `subprocess.run(cmd, capture_output=True, text=True)`:
either a completed process or an exception raised on launch. -/
inductive ProcResult where
  | ok (stdout stderr : String) (returncode : Int)
  | exn (msg : String)
deriving DecidableEq

/-- What `fetch_events` extracts from a subprocess outcome: `result.stdout`
(stderr and the return code are ignored), or the propagating exception. -/
def procStdout : ProcResult → Except String String
  | .ok out _ _ => .ok out
  | .exn m => .error m

/-- The command list built by `fetch_events` (source lines 27-36):
`["gog", "calendar", "events"]`, the calendar id appended only when the
string is truthy (non-empty), then the fixed flag block. -/
def fetch_events_cmd (account time_from time_to calendar_id : String) : List String :=
  let cmd := ["gog", "calendar", "events"]
  let cmd := if calendar_id = "" then cmd else cmd ++ [calendar_id]
  cmd ++ ["--account", account, "--from", time_from, "--to", time_to,
          "--max", "50", "--json"]

/-- `fetch_events` (source lines 25-38): run the command and return its
captured stdout; a launch exception propagates. -/
def fetch_events (run : List String → ProcResult)
    (account time_from time_to calendar_id : String) : Except String String :=
  procStdout (run (fetch_events_cmd account time_from time_to calendar_id))

/-- Split a character list at its first `':'`: `none` when no colon occurs,
otherwise the part before the first colon and the entire remainder. -/
def splitFirstColonAux : List Char → Option (List Char × List Char)
  | [] => none
  | c :: cs =>
    if c = ':' then some ([], cs)
    else
      match splitFirstColonAux cs with
      | none => none
      | some (a, b) => some (c :: a, b)

/-- Python `extra.split(":", 1)` guarded by `":" not in extra`
(source lines 64-67): `none` exactly when the string has no colon. -/
def splitFirstColon (s : String) : Option (String × String) :=
  (splitFirstColonAux s.data).map (fun p => (String.mk p.1, String.mk p.2))

/-- Python `":" in extra` (substring test for a single character). -/
def hasColon (s : String) : Bool := s.data.contains ':'

/-- A single-quote character as a string (used in the warning text). -/
def squote : String := String.singleton (Char.ofNat 39)

/-- The warning printed for a malformed extra specifier (source line 65). -/
def warnMsg (spec : String) : String :=
  "Warning: skipping invalid extra calendar " ++ squote ++ spec ++ squote
    ++ " (expected account:calendarId)"

/-- Python dict lookup `account_map.get(acct_key, acct_key)` over the
alias map built on source line 55, applied on source line 68: `personal`
and `work` map to the two account arguments, any other key falls back to
itself. -/
def resolveAlias (account_personal account_work key : String) : String :=
  if key = "personal" then account_personal
  else if key = "work" then account_work
  else key

/-- The extra-specifier loop (source lines 63-69): returns the warning
lines emitted to stderr and the list of `(cal_id, account)` fetch targets,
both in input order. -/
def processExtras (account_personal account_work : String) :
    List String → List String × List (String × String)
  | [] => ([], [])
  | e :: rest =>
    let (ws, ts) := processExtras account_personal account_work rest
    match splitFirstColon e with
    | none => (warnMsg e :: ws, ts)
    | some (k, c) => (ws, (c, resolveAlias account_personal account_work k) :: ts)

/-- Everything observable about one run of `main`: the strings printed to
stdout and stderr (one entry per `print` call, in order), the process exit
code, the argument vectors of the submitted subprocess tasks, and whether
an uncaught exception terminated the script. -/
structure MainOutput where
  stdoutItems : List String
  stderrItems : List String
  exitCode : Nat
  launched : List (List String)
  crashed : Bool
deriving DecidableEq

/-- The usage line printed to stderr when fewer than 4 positional
arguments are given (source lines 43-46). -/
def usageMsg : String :=
  "Usage: fetch_events.py <personal_account> <work_account> <from> <to> [extra_calendar_ids...]"

/-- The outcome of the `len(sys.argv) < 5` branch (source lines 42-47). -/
def usageOutput : MainOutput :=
  { stdoutItems := [], stderrItems := [usageMsg], exitCode := 1,
    launched := [], crashed := false }

/-- The tasks submitted for the valid extra targets, keyed by submission
slot starting at `i` (slots 0 and 1 are personal and work). -/
def extrasTasks (time_from time_to : String) :
    Nat → List (String × String) → List (Nat × List String)
  | _, [] => []
  | i, t :: rest =>
    (i, fetch_events_cmd t.2 time_from time_to t.1)
      :: extrasTasks time_from time_to (i + 1) rest

/-- All submitted tasks in submission order: personal (slot 0), work
(slot 1), then the valid extras (slots 2, 3, ...) — source lines 59-69. -/
def mainTasks (account_personal account_work time_from time_to : String)
    (targets : List (String × String)) : List (Nat × List String) :=
  (0, fetch_events_cmd account_personal time_from time_to "")
    :: (1, fetch_events_cmd account_work time_from time_to "")
    :: extrasTasks time_from time_to 2 targets

/-- The value `future.result()` yields for the future in a given slot:
slot 0 is the personal fetch, slot 1 the work fetch, slot `n + 2` the
`n`-th valid extra target. -/
def directRes (run : List String → ProcResult)
    (account_personal account_work time_from time_to : String)
    (targets : List (String × String)) : Nat → Except String String
  | 0 => fetch_events run account_personal time_from time_to ""
  | 1 => fetch_events run account_work time_from time_to ""
  | n + 2 =>
    match targets.get? n with
    | some t => fetch_events run t.2 time_from time_to t.1
    | none => Except.error "missing"

/-- The extras print loop (source lines 76-78): for each extra target
print its marker, then block on its result; an exception re-raised by
`future.result()` aborts the run after the marker was already printed. -/
def renderExtras (res : Nat → Except String String) :
    Nat → List String → List String × Bool
  | _, [] => ([], false)
  | i, c :: rest =>
    match res i with
    | .error _ => (["===EXTRA:" ++ c ++ "==="], true)
    | .ok out =>
      let (tail, cr) := renderExtras res (i + 1) rest
      (("===EXTRA:" ++ c ++ "===") :: out :: tail, cr)

/-- The whole print phase (source lines 71-78): personal marker and
result, work marker and result, then the extras loop; a re-raised
exception aborts after the marker of the failing slot. -/
def renderOutput (res : Nat → Except String String) (extraIds : List String) :
    List String × Bool :=
  match res 0 with
  | .error _ => (["===PERSONAL==="], true)
  | .ok p =>
    match res 1 with
    | .error _ => (["===PERSONAL===", p, "===WORK==="], true)
    | .ok w =>
      let (tail, cr) := renderExtras res 2 extraIds
      ("===PERSONAL===" :: p :: "===WORK===" :: w :: tail, cr)

/-- `main` (source lines 41-78). `argv` is the full `sys.argv`, program
name included. An uncaught exception gives Python exit status 1. -/
def mainRun (argv : List String) (run : List String → ProcResult) : MainOutput :=
  match argv with
  | _ :: account_personal :: account_work :: time_from :: time_to :: extra_calendars =>
    let (warnings, targets) := processExtras account_personal account_work extra_calendars
    let res := directRes run account_personal account_work time_from time_to targets
    let (items, cr) := renderOutput res (targets.map Prod.fst)
    { stdoutItems := items, stderrItems := warnings,
      exitCode := if cr then 1 else 0,
      launched := (mainTasks account_personal account_work time_from time_to targets).map Prod.snd,
      crashed := cr }
  | _ => usageOutput

/-- Run the submitted tasks in an arbitrary completion `order`, recording
each task's result as it completes. -/
def completeTasks (run : List String → ProcResult)
    (tasks : List (Nat × List String)) (order : List Nat) :
    List (Nat × ProcResult) :=
  order.filterMap (fun i => (tasks.lookup i).map (fun c => (i, run c)))

/-- Read a slot's result back from the completion table. -/
def tableRes (table : List (Nat × ProcResult)) : Nat → Except String String :=
  fun i =>
    match table.lookup i with
    | some r => procStdout r
    | none => Except.error "missing"

/-- `main` with the thread pool made explicit: the tasks complete in the
given `order`, and the print phase then reads the table in slot order. -/
def mainRunOrdered (argv : List String) (run : List String → ProcResult)
    (order : List Nat) : MainOutput :=
  match argv with
  | _ :: account_personal :: account_work :: time_from :: time_to :: extra_calendars =>
    let (warnings, targets) := processExtras account_personal account_work extra_calendars
    let tasks := mainTasks account_personal account_work time_from time_to targets
    let res := tableRes (completeTasks run tasks order)
    let (items, cr) := renderOutput res (targets.map Prod.fst)
    { stdoutItems := items, stderrItems := warnings,
      exitCode := if cr then 1 else 0,
      launched := tasks.map Prod.snd,
      crashed := cr }
  | _ => usageOutput

/-- A subprocess oracle that always completes, with the given stdout,
empty stderr and exit status 0. -/
def pureRun (f : List String → String) : List String → ProcResult :=
  fun cmd => .ok (f cmd) "" 0

/-- The actual stdout text: each `print(x)` contributes `x` plus a
newline. -/
def stdoutText (items : List String) : String :=
  items.foldr (fun s acc => s ++ "\n" ++ acc) ""

theorem splitFirstColonAux_eq_none_iff (l : List Char) :
    splitFirstColonAux l = none ↔ ':' ∉ l := by
  induction l with
  | nil => simp [splitFirstColonAux]
  | cons c cs ih =>
    by_cases hc : c = ':'
    · subst hc
      simp [splitFirstColonAux]
    · cases h : splitFirstColonAux cs with
      | none =>
        have hcs : ':' ∉ cs := ih.mp h
        simp [splitFirstColonAux, if_neg hc, h, hcs, Ne.symm hc]
      | some p =>
        obtain ⟨a, b⟩ := p
        have hcs : ':' ∈ cs := by
          by_contra hn
          rw [ih.mpr hn] at h
          exact Option.noConfusion h
        simp [splitFirstColonAux, if_neg hc, h, hcs]

theorem splitFirstColon_eq_none_iff (s : String) :
    splitFirstColon s = none ↔ ':' ∉ s.data := by
  rw [splitFirstColon, Option.map_eq_none']
  exact splitFirstColonAux_eq_none_iff _

theorem hasColon_eq_false_iff (s : String) : hasColon s = false ↔ ':' ∉ s.data := by
  simp [hasColon]

theorem splitFirstColonAux_append (k : List Char) (h : ':' ∉ k) (rest : List Char) :
    splitFirstColonAux (k ++ ':' :: rest) = some (k, rest) := by
  induction k with
  | nil => simp [splitFirstColonAux]
  | cons c cs ih =>
    have hc : c ≠ ':' := fun e => h (e ▸ List.mem_cons_self c cs)
    have hcs : ':' ∉ cs := fun hm => h (List.mem_cons_of_mem _ hm)
    simp [splitFirstColonAux, if_neg hc, ih hcs]

theorem splitFirstColonAux_sound :
    ∀ (l a b : List Char), splitFirstColonAux l = some (a, b) →
      ':' ∉ a ∧ l = a ++ ':' :: b := by
  intro l
  induction l with
  | nil =>
    intro a b h
    exact absurd h (by simp [splitFirstColonAux])
  | cons c cs ih =>
    intro a b h
    by_cases hc : c = ':'
    · subst hc
      simp [splitFirstColonAux] at h
      obtain ⟨ha, hb⟩ := h
      subst ha
      subst hb
      simp
    · cases hcs : splitFirstColonAux cs with
      | none =>
        rw [splitFirstColonAux, if_neg hc, hcs] at h
        exact Option.noConfusion h
      | some p =>
        obtain ⟨a', b'⟩ := p
        rw [splitFirstColonAux, if_neg hc, hcs] at h
        simp only [Option.some.injEq, Prod.mk.injEq] at h
        obtain ⟨ha, hb⟩ := h
        obtain ⟨hna, he⟩ := ih a' b' hcs
        subst ha
        subst hb
        constructor
        · simp [List.mem_cons, hna, Ne.symm hc]
        · simp [he]

theorem string_data_append (s t : String) : (s ++ t).data = s.data ++ t.data :=
  String.data_append s t

theorem append_colon_data (k c : String) :
    (k ++ ":" ++ c).data = k.data ++ ':' :: c.data := by
  simp [string_data_append]

theorem splitFirstColon_append (k c : String) (h : ':' ∉ k.data) :
    splitFirstColon (k ++ ":" ++ c) = some (k, c) := by
  rw [splitFirstColon, append_colon_data, splitFirstColonAux_append _ h]
  rfl

theorem splitFirstColon_sound (e k c : String) (h : splitFirstColon e = some (k, c)) :
    ':' ∉ k.data ∧ e = k ++ ":" ++ c := by
  rw [splitFirstColon] at h
  cases haux : splitFirstColonAux e.data with
  | none =>
    rw [haux] at h
    exact Option.noConfusion h
  | some p =>
    obtain ⟨a, b⟩ := p
    rw [haux] at h
    simp only [Option.map_some', Option.some.injEq, Prod.mk.injEq] at h
    obtain ⟨hk, hc⟩ := h
    obtain ⟨hna, he⟩ := splitFirstColonAux_sound e.data a b haux
    subst hk
    subst hc
    refine ⟨hna, ?_⟩
    have h2 : (String.mk a ++ ":" ++ String.mk b).data = a ++ ':' :: b :=
      append_colon_data (String.mk a) (String.mk b)
    exact (congrArg String.mk he).trans (congrArg String.mk h2).symm

theorem hasColon_eq_true_iff (s : String) : hasColon s = true ↔ ':' ∈ s.data := by
  simp [hasColon]

theorem processExtras_cons_none (ap aw e : String) (rest : List String)
    (h : splitFirstColon e = none) :
    processExtras ap aw (e :: rest) =
      (warnMsg e :: (processExtras ap aw rest).1, (processExtras ap aw rest).2) := by
  rcases hpe : processExtras ap aw rest with ⟨ws, ts⟩
  simp [processExtras, h, hpe]

theorem processExtras_cons_some (ap aw e k c : String) (rest : List String)
    (h : splitFirstColon e = some (k, c)) :
    processExtras ap aw (e :: rest) =
      ((processExtras ap aw rest).1,
        (c, resolveAlias ap aw k) :: (processExtras ap aw rest).2) := by
  rcases hpe : processExtras ap aw rest with ⟨ws, ts⟩
  simp [processExtras, h, hpe]

theorem warnMsg_head (e : String) : (warnMsg e).data.head? = some 'W' := by
  have hA : ("Warning: skipping invalid extra calendar ").data
      = 'W' :: ("arning: skipping invalid extra calendar ").data := rfl
  simp [warnMsg, string_data_append, hA]

theorem warnMsg_ne_usageMsg (e : String) : warnMsg e ≠ usageMsg := by
  intro h
  have hW := (warnMsg_head e).symm.trans (congrArg (fun s => s.data.head?) h)
  have hU : usageMsg.data.head? = some 'U' := rfl
  rw [hU] at hW
  exact absurd (Option.some.inj hW) (by decide)

theorem mem_processExtras_warnings (ap aw : String) :
    ∀ (extras : List String) (w : String),
      w ∈ (processExtras ap aw extras).1 → ∃ e, w = warnMsg e := by
  intro extras
  induction extras with
  | nil =>
    intro w hw
    simp [processExtras] at hw
  | cons e rest ih =>
    intro w hw
    cases hs : splitFirstColon e with
    | none =>
      rw [processExtras_cons_none ap aw e rest hs] at hw
      rcases List.mem_cons.mp hw with h | h
      · exact ⟨e, h⟩
      · exact ih w h
    | some p =>
      obtain ⟨k, c⟩ := p
      rw [processExtras_cons_some ap aw e k c rest hs] at hw
      exact ih w hw

theorem processExtras_snd_length (ap aw : String) :
    ∀ extras : List String,
      (processExtras ap aw extras).2.length
        = (extras.filter (fun e => hasColon e)).length := by
  intro extras
  induction extras with
  | nil => rfl
  | cons e rest ih =>
    cases hs : splitFirstColon e with
    | none =>
      have hnc : hasColon e = false :=
        (hasColon_eq_false_iff e).mpr ((splitFirstColon_eq_none_iff e).mp hs)
      rw [processExtras_cons_none ap aw e rest hs]
      simp [List.filter, hnc, ih]
    | some p =>
      obtain ⟨k, c⟩ := p
      have hc : hasColon e = true := by
        apply (hasColon_eq_true_iff e).mpr
        by_contra hn
        rw [(splitFirstColon_eq_none_iff e).mpr hn] at hs
        exact Option.noConfusion hs
      rw [processExtras_cons_some ap aw e k c rest hs]
      simp [List.filter, hc, ih]

theorem length_filter_add_length_filter_not (p : String → Bool) :
    ∀ l : List String,
      (l.filter p).length + (l.filter (fun a => ! p a)).length = l.length := by
  intro l
  induction l with
  | nil => rfl
  | cons a t ih =>
    cases h : p a <;> simp [List.filter, h] <;> omega

theorem renderExtras_ok_of (res : Nat → Except String String)
    (v : String × String → String) :
    ∀ (ts : List (String × String)) (i : Nat),
      (∀ n (hn : n < ts.length), res (i + n) = Except.ok (v (ts.get ⟨n, hn⟩))) →
      renderExtras res i (ts.map Prod.fst) =
        (ts.flatMap (fun t => [("===EXTRA:" ++ t.1 ++ "==="), v t]), false) := by
  intro ts
  induction ts with
  | nil =>
    intro i h
    rfl
  | cons t rest ih =>
    intro i h
    have h0 : res i = Except.ok (v t) := by
      have := h 0 (by simp)
      simpa using this
    have hrest : ∀ n (hn : n < rest.length),
        res ((i + 1) + n) = Except.ok (v (rest.get ⟨n, hn⟩)) := by
      intro n hn
      have hx := h (n + 1) (by simpa using Nat.succ_lt_succ hn)
      have e : i + (n + 1) = (i + 1) + n := by omega
      rw [e] at hx
      exact hx
    simp [renderExtras, h0, ih (i + 1) hrest]

theorem mainRun_cons (p ap aw tf tt : String) (extras : List String)
    (run : List String → ProcResult) :
    mainRun (p :: ap :: aw :: tf :: tt :: extras) run =
      { stdoutItems :=
          (renderOutput (directRes run ap aw tf tt (processExtras ap aw extras).2)
            ((processExtras ap aw extras).2.map Prod.fst)).1,
        stderrItems := (processExtras ap aw extras).1,
        exitCode :=
          if (renderOutput (directRes run ap aw tf tt (processExtras ap aw extras).2)
              ((processExtras ap aw extras).2.map Prod.fst)).2 then 1 else 0,
        launched := (mainTasks ap aw tf tt (processExtras ap aw extras).2).map Prod.snd,
        crashed :=
          (renderOutput (directRes run ap aw tf tt (processExtras ap aw extras).2)
            ((processExtras ap aw extras).2.map Prod.fst)).2 } := by
  rcases hpe : processExtras ap aw extras with ⟨ws, ts⟩
  rcases hro : renderOutput (directRes run ap aw tf tt ts) (ts.map Prod.fst) with ⟨items, cr⟩
  simp [mainRun, hpe, hro]

theorem mainRun_pure (p ap aw tf tt : String) (extras : List String)
    (f : List String → String) :
    mainRun (p :: ap :: aw :: tf :: tt :: extras) (pureRun f) =
      { stdoutItems := "===PERSONAL===" :: f (fetch_events_cmd ap tf tt "")
          :: "===WORK===" :: f (fetch_events_cmd aw tf tt "")
          :: (processExtras ap aw extras).2.flatMap
               (fun t => [("===EXTRA:" ++ t.1 ++ "==="),
                          f (fetch_events_cmd t.2 tf tt t.1)]),
        stderrItems := (processExtras ap aw extras).1,
        exitCode := 0,
        launched := (mainTasks ap aw tf tt (processExtras ap aw extras).2).map Prod.snd,
        crashed := false } := by
  rw [mainRun_cons]
  have hex : renderExtras (directRes (pureRun f) ap aw tf tt (processExtras ap aw extras).2) 2
      ((processExtras ap aw extras).2.map Prod.fst) =
      ((processExtras ap aw extras).2.flatMap
        (fun t => [("===EXTRA:" ++ t.1 ++ "==="),
                   f (fetch_events_cmd t.2 tf tt t.1)]), false) := by
    apply renderExtras_ok_of
    intro n hn
    have e : 2 + n = n + 2 := by omega
    rw [e]
    have hg : (processExtras ap aw extras).2[n]?
        = some ((processExtras ap aw extras).2[n]) := List.getElem?_eq_getElem hn
    simp [directRes, hg, fetch_events, pureRun, procStdout]
  simp [renderOutput, hex, directRes, fetch_events, pureRun, procStdout]

/-- C2: the command builder produces exactly
`gog calendar events [C] --account A --from F --to T --max 50 --json`;
the positional calendar id appears (right after `calendar events`) iff it
is non-empty, and `A`, `F`, `T` are passed through verbatim. -/
theorem fetch_events_cmd_spec (A F T C : String) (h : C ≠ "") :
    fetch_events_cmd A F T "" =
      ["gog", "calendar", "events", "--account", A, "--from", F, "--to", T,
       "--max", "50", "--json"]
    ∧ fetch_events_cmd A F T C =
      ["gog", "calendar", "events", C, "--account", A, "--from", F, "--to", T,
       "--max", "50", "--json"] := by
  refine ⟨rfl, ?_⟩
  simp [fetch_events_cmd, h]

/-- Witness for C2 at concrete inputs. -/
theorem fetch_events_cmd_spec_witness :
    fetch_events_cmd "a@x" "2026-02-20" "2026-02-21" "" =
      ["gog", "calendar", "events", "--account", "a@x", "--from", "2026-02-20",
       "--to", "2026-02-21", "--max", "50", "--json"]
    ∧ fetch_events_cmd "a@x" "2026-02-20" "2026-02-21" "cal1" =
      ["gog", "calendar", "events", "cal1", "--account", "a@x", "--from",
       "2026-02-20", "--to", "2026-02-21", "--max", "50", "--json"] :=
  fetch_events_cmd_spec "a@x" "2026-02-20" "2026-02-21" "cal1" (by decide)

/-- C1: with at least 4 positional arguments, N extra specifiers of which
M lack a colon, stdout is exactly the fixed-order section sequence —
`===PERSONAL===` then its captured stdout, `===WORK===` then its captured
stdout, then one `===EXTRA:<calendarId>===` marker per valid extra in
input order, each immediately followed by that target's captured stdout —
so it carries exactly `2 + (N - M)` section markers. -/
theorem sections_structure_and_count (p ap aw tf tt : String) (extras : List String)
    (f : List String → String) :
    (mainRun (p :: ap :: aw :: tf :: tt :: extras) (pureRun f)).stdoutItems =
      "===PERSONAL===" :: f (fetch_events_cmd ap tf tt "")
        :: "===WORK===" :: f (fetch_events_cmd aw tf tt "")
        :: (processExtras ap aw extras).2.flatMap
             (fun t => [("===EXTRA:" ++ t.1 ++ "==="),
                        f (fetch_events_cmd t.2 tf tt t.1)])
    ∧ 2 + (processExtras ap aw extras).2.length
        = 2 + (extras.length - (extras.filter (fun e => ! hasColon e)).length) := by
  constructor
  · rw [mainRun_pure]
  · have h1 := processExtras_snd_length ap aw extras
    have h2 := length_filter_add_length_filter_not (fun e => hasColon e) extras
    omega

/-- C3: with fewer than 4 positional arguments the run is exactly the
usage outcome — exit status 1, a usage string starting with `Usage:` on
stderr, and no subprocess launched; with at least 4 positional arguments
the usage path is not taken: stderr holds only the extra-specifier
warnings and never the usage line. -/
theorem usage_on_few_args (argv : List String) (run : List String → ProcResult)
    (p ap aw tf tt : String) (rest : List String) (h : argv.length < 5) :
    (mainRun argv run = usageOutput
      ∧ usageOutput.exitCode = 1
      ∧ usageOutput.stderrItems = [usageMsg]
      ∧ usageMsg.data.take 6 = ("Usage:").data
      ∧ usageOutput.launched = [])
    ∧ ((mainRun (p :: ap :: aw :: tf :: tt :: rest) run).stderrItems
          = (processExtras ap aw rest).1
        ∧ usageMsg ∉ (mainRun (p :: ap :: aw :: tf :: tt :: rest) run).stderrItems) := by
  refine ⟨⟨?_, rfl, rfl, by decide, rfl⟩, ?_, ?_⟩
  · rcases argv with _ | ⟨a1, _ | ⟨a2, _ | ⟨a3, _ | ⟨a4, _ | ⟨a5, tail⟩⟩⟩⟩⟩
    · rfl
    · rfl
    · rfl
    · rfl
    · rfl
    · exfalso
      simp [List.length_cons] at h
      omega
  · rw [mainRun_cons]
  · rw [mainRun_cons]
    intro hmem
    obtain ⟨e, he⟩ := mem_processExtras_warnings ap aw rest usageMsg hmem
    exact warnMsg_ne_usageMsg e he.symm

/-- Witness for C3 at concrete inputs. -/
theorem usage_on_few_args_witness :
    (mainRun ["fetch_events.py"] (pureRun (fun _ => "")) = usageOutput
      ∧ usageOutput.exitCode = 1
      ∧ usageOutput.stderrItems = [usageMsg]
      ∧ usageMsg.data.take 6 = ("Usage:").data
      ∧ usageOutput.launched = [])
    ∧ ((mainRun ["fetch_events.py", "p@x", "w@x", "2026-02-20", "2026-02-21", "bad"]
          (pureRun (fun _ => ""))).stderrItems
          = (processExtras "p@x" "w@x" ["bad"]).1
        ∧ usageMsg ∉ (mainRun ["fetch_events.py", "p@x", "w@x", "2026-02-20", "2026-02-21", "bad"]
            (pureRun (fun _ => ""))).stderrItems) :=
  usage_on_few_args ["fetch_events.py"] (pureRun (fun _ => ""))
    "fetch_events.py" "p@x" "w@x" "2026-02-20" "2026-02-21" ["bad"] (by decide)

/-- C4: the alias before the first colon of a valid extra specifier
resolves to the personal account value for `personal`, the work account
value for `work`, and to itself for any other string. -/
theorem alias_resolution (ap aw X k : String) (h : ':' ∉ k.data) :
    (processExtras ap aw [("personal:" ++ X)]).2 = [(X, ap)]
    ∧ (processExtras ap aw [("work:" ++ X)]).2 = [(X, aw)]
    ∧ (k ≠ "personal" → k ≠ "work" →
        (processExtras ap aw [(k ++ ":" ++ X)]).2 = [(X, k)]) := by
  have hper : splitFirstColon ("personal" ++ ":" ++ X) = some ("personal", X) :=
    splitFirstColon_append "personal" X (by decide)
  have hwork : splitFirstColon ("work" ++ ":" ++ X) = some ("work", X) :=
    splitFirstColon_append "work" X (by decide)
  have hk : splitFirstColon (k ++ ":" ++ X) = some (k, X) :=
    splitFirstColon_append k X h
  refine ⟨?_, ?_, ?_⟩
  · rw [show ("personal:" ++ X) = "personal" ++ ":" ++ X from rfl]
    rw [processExtras_cons_some ap aw ("personal" ++ ":" ++ X) "personal" X [] hper]
    simp [processExtras, resolveAlias]
  · rw [show ("work:" ++ X) = "work" ++ ":" ++ X from rfl]
    rw [processExtras_cons_some ap aw ("work" ++ ":" ++ X) "work" X [] hwork]
    simp [processExtras, resolveAlias]
  · intro h1 h2
    rw [processExtras_cons_some ap aw (k ++ ":" ++ X) k X [] hk]
    simp [processExtras, resolveAlias, h1, h2]

/-- Witness for C4 at concrete inputs. -/
theorem alias_resolution_witness :
    (processExtras "A" "B" [("personal:" ++ "c1")]).2 = [("c1", "A")]
    ∧ (processExtras "A" "B" [("work:" ++ "c1")]).2 = [("c1", "B")]
    ∧ (processExtras "A" "B" [("other" ++ ":" ++ "c1")]).2 = [("c1", "other")] := by
  obtain ⟨h1, h2, h3⟩ := alias_resolution "A" "B" "c1" "other" (by decide)
  exact ⟨h1, h2, h3 (by decide) (by decide)⟩

/-- C5: a colon-free extra specifier produces exactly one warning line —
`Warning: skipping invalid extra calendar '<spec>' (expected
account:calendarId)` — emitted on stderr only, creates no fetch target,
and the remaining specifiers are still processed. -/
theorem invalid_extra_warning (p ap aw tf tt e : String) (rest : List String)
    (run : List String → ProcResult) (h : ':' ∉ e.data) :
    (processExtras ap aw (e :: rest)).1 = warnMsg e :: (processExtras ap aw rest).1
    ∧ (processExtras ap aw (e :: rest)).2 = (processExtras ap aw rest).2
    ∧ warnMsg e = "Warning: skipping invalid extra calendar " ++ squote ++ e
        ++ squote ++ " (expected account:calendarId)"
    ∧ (mainRun (p :: ap :: aw :: tf :: tt :: e :: rest) run).stderrItems
        = (processExtras ap aw (e :: rest)).1 := by
  have hs : splitFirstColon e = none := (splitFirstColon_eq_none_iff e).mpr h
  have hpe := processExtras_cons_none ap aw e rest hs
  refine ⟨?_, ?_, rfl, ?_⟩
  · rw [hpe]
  · rw [hpe]
  · rw [mainRun_cons]

/-- Witness for C5 at concrete inputs. -/
theorem invalid_extra_warning_witness :
    (processExtras "A" "B" ["bad"]).1 = warnMsg "bad" :: (processExtras "A" "B" []).1
    ∧ (processExtras "A" "B" ["bad"]).2 = (processExtras "A" "B" []).2
    ∧ warnMsg "bad" = "Warning: skipping invalid extra calendar " ++ squote ++ "bad"
        ++ squote ++ " (expected account:calendarId)"
    ∧ (mainRun ["fetch_events.py", "A", "B", "2026-01-01", "2026-01-02", "bad"]
        (pureRun (fun _ => ""))).stderrItems
        = (processExtras "A" "B" ["bad"]).1 :=
  invalid_extra_warning "fetch_events.py" "A" "B" "2026-01-01" "2026-01-02" "bad" []
    (pureRun (fun _ => "")) (by decide)

/-- C6: a specifier with a colon splits only at the first colon — the
alias part is the colon-free part before it, the calendar id is the
entire remainder (so `personal:x:y` yields calendar id `x:y`). -/
theorem split_first_colon_spec :
    (∀ e k c : String, splitFirstColon e = some (k, c) →
        ':' ∉ k.data ∧ e = k ++ ":" ++ c)
    ∧ (∀ k c : String, ':' ∉ k.data →
        splitFirstColon (k ++ ":" ++ c) = some (k, c))
    ∧ splitFirstColon "personal:x:y" = some ("personal", "x:y") := by
  refine ⟨splitFirstColon_sound, splitFirstColon_append, ?_⟩
  decide

/-- Witness for C6 at concrete inputs. -/
theorem split_first_colon_spec_witness :
    (':' ∉ ("a").data ∧ "a:b:c" = "a" ++ ":" ++ "b:c")
    ∧ splitFirstColon ("a" ++ ":" ++ "b:c") = some ("a", "b:c") :=
  ⟨split_first_colon_spec.1 "a:b:c" "a" "b:c" (by decide),
   split_first_colon_spec.2.1 "a" "b:c" (by decide)⟩

/-- C8: the end-to-end example — `fetch_events personal work 2026-02-20
2026-02-20` with the external tool stubbed to return `P-DATA` for the
personal command and `W-DATA` for the work command prints exactly the four
lines `===PERSONAL===`, `P-DATA`, `===WORK===`, `W-DATA`. -/
theorem end_to_end_example :
    (mainRun ["fetch_events.py", "personal", "work", "2026-02-20", "2026-02-20"]
      (pureRun (fun cmd =>
        if cmd = fetch_events_cmd "personal" "2026-02-20" "2026-02-20" "" then "P-DATA"
        else if cmd = fetch_events_cmd "work" "2026-02-20" "2026-02-20" "" then "W-DATA"
        else ""))).stdoutItems
      = ["===PERSONAL===", "P-DATA", "===WORK===", "W-DATA"]
    ∧ stdoutText
        (mainRun ["fetch_events.py", "personal", "work", "2026-02-20", "2026-02-20"]
          (pureRun (fun cmd =>
            if cmd = fetch_events_cmd "personal" "2026-02-20" "2026-02-20" "" then "P-DATA"
            else if cmd = fetch_events_cmd "work" "2026-02-20" "2026-02-20" "" then "W-DATA"
            else ""))).stdoutItems
      = "===PERSONAL===\nP-DATA\n===WORK===\nW-DATA\n" := by
  constructor
  · decide
  · decide

theorem mainRun_congr_procStdout (argv : List String)
    (run1 run2 : List String → ProcResult)
    (h : ∀ cmd, procStdout (run1 cmd) = procStdout (run2 cmd)) :
    mainRun argv run1 = mainRun argv run2 := by
  rcases argv with _ | ⟨p, _ | ⟨ap, _ | ⟨aw, _ | ⟨tf, _ | ⟨tt, extras⟩⟩⟩⟩⟩
  · rfl
  · rfl
  · rfl
  · rfl
  · rfl
  · have hd : directRes run1 ap aw tf tt (processExtras ap aw extras).2
        = directRes run2 ap aw tf tt (processExtras ap aw extras).2 := by
      funext i
      cases i with
      | zero => exact h _
      | succ n =>
        cases n with
        | zero => exact h _
        | succ m =>
          simp only [directRes]
          cases hg : (processExtras ap aw extras).2.get? m with
          | some t => exact h _
          | none => rfl
    rw [mainRun_cons, mainRun_cons, hd]

/-- C7 (amended): with at least 4 positional arguments, a non-zero
subprocess exit status, arbitrary subprocess stderr, or empty/garbled
stdout is not distinguished from success — the run only depends on each
command's captured stdout, prints it under the section marker, and exits
0 — but an exception raised while launching a process is distinguished:
it propagates out of `future.result()`, so the run crashes with exit
status 1 after printing only the markers already emitted. -/
theorem subprocess_failure_amended (p ap aw tf tt : String) (extras : List String)
    (f se : List String → String) (rc : List String → Int)
    (run : List String → ProcResult) (m : String)
    (hexn : run (fetch_events_cmd ap tf tt "") = ProcResult.exn m) :
    (mainRun (p :: ap :: aw :: tf :: tt :: extras)
        (fun cmd => ProcResult.ok (f cmd) (se cmd) (rc cmd))
      = mainRun (p :: ap :: aw :: tf :: tt :: extras) (pureRun f))
    ∧ (mainRun (p :: ap :: aw :: tf :: tt :: extras) (pureRun f)).exitCode = 0
    ∧ (mainRun (p :: ap :: aw :: tf :: tt :: extras) (pureRun f)).crashed = false
    ∧ (mainRun (p :: ap :: aw :: tf :: tt :: extras) run).crashed = true
    ∧ (mainRun (p :: ap :: aw :: tf :: tt :: extras) run).exitCode = 1
    ∧ (mainRun (p :: ap :: aw :: tf :: tt :: extras) run).stdoutItems
        = ["===PERSONAL==="] := by
  have h1 := mainRun_congr_procStdout (p :: ap :: aw :: tf :: tt :: extras)
    (fun cmd => ProcResult.ok (f cmd) (se cmd) (rc cmd)) (pureRun f)
    (fun cmd => rfl)
  have hp := mainRun_pure p ap aw tf tt extras f
  have h0 : directRes run ap aw tf tt (processExtras ap aw extras).2 0
      = Except.error m := by
    simp [directRes, fetch_events, hexn, procStdout]
  have hcrash : renderOutput (directRes run ap aw tf tt (processExtras ap aw extras).2)
      ((processExtras ap aw extras).2.map Prod.fst) = (["===PERSONAL==="], true) := by
    simp [renderOutput, h0]
  refine ⟨h1, by rw [hp], by rw [hp], ?_, ?_, ?_⟩
  · rw [mainRun_cons, hcrash]
  · rw [mainRun_cons, hcrash]
    rfl
  · rw [mainRun_cons, hcrash]

/-- Witness for C7 (amended) at concrete inputs. -/
theorem subprocess_failure_amended_witness :
    (mainRun ["fetch_events.py", "A", "B", "2026-01-01", "2026-01-02"]
        (fun _ => ProcResult.ok "O" "E" 1)
      = mainRun ["fetch_events.py", "A", "B", "2026-01-01", "2026-01-02"]
          (pureRun (fun _ => "O")))
    ∧ (mainRun ["fetch_events.py", "A", "B", "2026-01-01", "2026-01-02"]
        (pureRun (fun _ => "O"))).exitCode = 0
    ∧ (mainRun ["fetch_events.py", "A", "B", "2026-01-01", "2026-01-02"]
        (pureRun (fun _ => "O"))).crashed = false
    ∧ (mainRun ["fetch_events.py", "A", "B", "2026-01-01", "2026-01-02"]
        (fun _ => ProcResult.exn "boom")).crashed = true
    ∧ (mainRun ["fetch_events.py", "A", "B", "2026-01-01", "2026-01-02"]
        (fun _ => ProcResult.exn "boom")).exitCode = 1
    ∧ (mainRun ["fetch_events.py", "A", "B", "2026-01-01", "2026-01-02"]
        (fun _ => ProcResult.exn "boom")).stdoutItems = ["===PERSONAL==="] :=
  subprocess_failure_amended "fetch_events.py" "A" "B" "2026-01-01" "2026-01-02" []
    (fun _ => "O") (fun _ => "E") (fun _ => 1) (fun _ => ProcResult.exn "boom")
    "boom" rfl

/-- C7 counterexample: with at least 4 positional arguments and an
external tool whose launch raises an exception, the orchestrator's exit
status does not remain 0 and the error does surface: the run crashes with
exit status 1. -/
theorem subprocess_failure_counterexample :
    (mainRun ["fetch_events.py", "A", "B", "2026-01-01", "2026-01-02"]
        (fun _ => ProcResult.exn "FileNotFoundError")).exitCode = 1
    ∧ (mainRun ["fetch_events.py", "A", "B", "2026-01-01", "2026-01-02"]
        (fun _ => ProcResult.exn "FileNotFoundError")).crashed = true :=
  ⟨rfl, rfl⟩

theorem lookup_completeTasks_none (run : List String → ProcResult)
    (tasks : List (Nat × List String)) (i : Nat) (h : tasks.lookup i = none) :
    ∀ order : List Nat, (completeTasks run tasks order).lookup i = none := by
  intro order
  induction order with
  | nil => rfl
  | cons j rest ih =>
    cases hj : tasks.lookup j with
    | none =>
      have hcons : completeTasks run tasks (j :: rest) = completeTasks run tasks rest := by
        simp [completeTasks, List.filterMap_cons, hj]
      rw [hcons]
      exact ih
    | some c =>
      have hcons : completeTasks run tasks (j :: rest)
          = (j, run c) :: completeTasks run tasks rest := by
        simp [completeTasks, List.filterMap_cons, hj]
      rw [hcons]
      by_cases hij : i = j
      · subst hij
        rw [h] at hj
        exact Option.noConfusion hj
      · have hb : (i == j) = false := beq_eq_false_iff_ne.mpr hij
        simp [List.lookup, hb, ih]

theorem lookup_completeTasks (run : List String → ProcResult)
    (tasks : List (Nat × List String)) :
    ∀ (order : List Nat) (i : Nat), i ∈ order →
      (completeTasks run tasks order).lookup i
        = (tasks.lookup i).map (fun c => run c) := by
  intro order
  induction order with
  | nil =>
    intro i hi
    cases hi
  | cons j rest ih =>
    intro i hi
    cases hj : tasks.lookup j with
    | none =>
      have hcons : completeTasks run tasks (j :: rest) = completeTasks run tasks rest := by
        simp [completeTasks, List.filterMap_cons, hj]
      rw [hcons]
      rcases List.mem_cons.mp hi with he | hm
      · subst he
        rw [hj, Option.map_none']
        exact lookup_completeTasks_none run tasks i hj rest
      · exact ih i hm
    | some c =>
      have hcons : completeTasks run tasks (j :: rest)
          = (j, run c) :: completeTasks run tasks rest := by
        simp [completeTasks, List.filterMap_cons, hj]
      rw [hcons]
      by_cases hij : i = j
      · subst hij
        simp [List.lookup, hj]
      · have hb : (i == j) = false := beq_eq_false_iff_ne.mpr hij
        rcases List.mem_cons.mp hi with he | hm
        · exact absurd he hij
        · simp [List.lookup, hb, ih i hm]

theorem extrasTasks_lookup (tf tt : String) :
    ∀ (ts : List (String × String)) (n i : Nat) (t : String × String),
      ts.get? n = some t →
      (extrasTasks tf tt i ts).lookup (i + n)
        = some (fetch_events_cmd t.2 tf tt t.1) := by
  intro ts
  induction ts with
  | nil =>
    intro n i t ht
    simp at ht
  | cons hd rest ih =>
    intro n i t ht
    cases n with
    | zero =>
      obtain rfl : hd = t := by simpa using ht
      simp [extrasTasks, List.lookup]
    | succ n =>
      have hb : ((i + (n + 1) == i) : Bool) = false := by
        apply beq_eq_false_iff_ne.mpr
        omega
      have he : i + (n + 1) = (i + 1) + n := by omega
      simp only [extrasTasks, List.lookup, hb]
      rw [he]
      exact ih n (i + 1) t (by simpa using ht)

theorem extrasTasks_mem_keys (tf tt : String) :
    ∀ (ts : List (String × String)) (n i : Nat), n < ts.length →
      (i + n) ∈ (extrasTasks tf tt i ts).map Prod.fst := by
  intro ts
  induction ts with
  | nil =>
    intro n i h
    simp at h
  | cons hd rest ih =>
    intro n i h
    cases n with
    | zero => simp [extrasTasks]
    | succ n =>
      have he : i + (n + 1) = (i + 1) + n := by omega
      simp only [extrasTasks, List.map_cons, List.mem_cons]
      right
      rw [he]
      exact ih n (i + 1) (by simpa using h)

theorem mainTasks_lookup_extra (ap aw tf tt : String)
    (targets : List (String × String)) (n : Nat) (t : String × String)
    (ht : targets.get? n = some t) :
    (mainTasks ap aw tf tt targets).lookup (n + 2)
      = some (fetch_events_cmd t.2 tf tt t.1) := by
  have hskip : (mainTasks ap aw tf tt targets).lookup (n + 2)
      = (extrasTasks tf tt 2 targets).lookup (n + 2) := rfl
  rw [hskip, show n + 2 = 2 + n from by omega]
  exact extrasTasks_lookup tf tt targets n 2 t ht

theorem renderExtras_congr (r1 r2 : Nat → Except String String) :
    ∀ (ids : List String) (i : Nat),
      (∀ n, n < ids.length → r1 (i + n) = r2 (i + n)) →
      renderExtras r1 i ids = renderExtras r2 i ids := by
  intro ids
  induction ids with
  | nil =>
    intro i h
    rfl
  | cons c rest ih =>
    intro i h
    have h0 : r1 i = r2 i := by
      have := h 0 (by simp)
      simpa using this
    have hrest : ∀ n, n < rest.length → r1 ((i + 1) + n) = r2 ((i + 1) + n) := by
      intro n hn
      have hx := h (n + 1) (by simpa using Nat.succ_lt_succ hn)
      have he : i + (n + 1) = (i + 1) + n := by omega
      rwa [he] at hx
    cases hr2 : r2 i with
    | error msg => simp [renderExtras, h0, hr2]
    | ok out => simp [renderExtras, h0, hr2, ih (i + 1) hrest]

theorem renderOutput_congr (r1 r2 : Nat → Except String String) (ids : List String)
    (h0 : r1 0 = r2 0) (h1 : r1 1 = r2 1)
    (h2 : ∀ n, n < ids.length → r1 (2 + n) = r2 (2 + n)) :
    renderOutput r1 ids = renderOutput r2 ids := by
  have hex := renderExtras_congr r1 r2 ids 2 h2
  cases hr0 : r2 0 with
  | error m => simp [renderOutput, h0, hr0]
  | ok pres =>
    cases hr1 : r2 1 with
    | error m => simp [renderOutput, h0, h1, hr0, hr1]
    | ok wres => simp [renderOutput, h0, h1, hr0, hr1, hex]

theorem mainRunOrdered_cons (p ap aw tf tt : String) (extras : List String)
    (run : List String → ProcResult) (order : List Nat) :
    mainRunOrdered (p :: ap :: aw :: tf :: tt :: extras) run order =
      { stdoutItems :=
          (renderOutput
            (tableRes (completeTasks run
              (mainTasks ap aw tf tt (processExtras ap aw extras).2) order))
            ((processExtras ap aw extras).2.map Prod.fst)).1,
        stderrItems := (processExtras ap aw extras).1,
        exitCode :=
          if (renderOutput
              (tableRes (completeTasks run
                (mainTasks ap aw tf tt (processExtras ap aw extras).2) order))
              ((processExtras ap aw extras).2.map Prod.fst)).2 then 1 else 0,
        launched := (mainTasks ap aw tf tt (processExtras ap aw extras).2).map Prod.snd,
        crashed :=
          (renderOutput
            (tableRes (completeTasks run
              (mainTasks ap aw tf tt (processExtras ap aw extras).2) order))
            ((processExtras ap aw extras).2.map Prod.fst)).2 } := by
  rcases hpe : processExtras ap aw extras with ⟨ws, ts⟩
  rcases hro : renderOutput (tableRes (completeTasks run (mainTasks ap aw tf tt ts) order))
      (ts.map Prod.fst) with ⟨items, cr⟩
  simp [mainRunOrdered, hpe, hro]

/-- C9: the printed output is uniquely determined by the command-line
arguments and the per-command subprocess results: for any completion
order of the concurrent tasks (any permutation of the submitted task
slots), the scheduled run prints exactly what the direct run prints, on
both streams. -/
theorem print_order_deterministic (p ap aw tf tt : String) (extras : List String)
    (run : List String → ProcResult) (order : List Nat)
    (hperm : List.Perm order
      ((mainTasks ap aw tf tt (processExtras ap aw extras).2).map Prod.fst)) :
    mainRunOrdered (p :: ap :: aw :: tf :: tt :: extras) run order
      = mainRun (p :: ap :: aw :: tf :: tt :: extras) run := by
  rw [mainRunOrdered_cons, mainRun_cons]
  have hres : renderOutput
      (tableRes (completeTasks run
        (mainTasks ap aw tf tt (processExtras ap aw extras).2) order))
      ((processExtras ap aw extras).2.map Prod.fst)
      = renderOutput (directRes run ap aw tf tt (processExtras ap aw extras).2)
        ((processExtras ap aw extras).2.map Prod.fst) := by
    apply renderOutput_congr
    · have hm : (0 : Nat) ∈ order := hperm.mem_iff.mpr (by simp [mainTasks])
      have hl := lookup_completeTasks run
        (mainTasks ap aw tf tt (processExtras ap aw extras).2) order 0 hm
      rw [show (mainTasks ap aw tf tt (processExtras ap aw extras).2).lookup 0
          = some (fetch_events_cmd ap tf tt "") from rfl] at hl
      simp [tableRes, hl, directRes, fetch_events]
    · have hm : (1 : Nat) ∈ order := hperm.mem_iff.mpr (by simp [mainTasks])
      have hl := lookup_completeTasks run
        (mainTasks ap aw tf tt (processExtras ap aw extras).2) order 1 hm
      rw [show (mainTasks ap aw tf tt (processExtras ap aw extras).2).lookup 1
          = some (fetch_events_cmd aw tf tt "") from rfl] at hl
      simp [tableRes, hl, directRes, fetch_events]
    · intro n hn
      have hn' : n < (processExtras ap aw extras).2.length := by simpa using hn
      cases ht : (processExtras ap aw extras).2.get? n with
      | none =>
        rw [List.get?_eq_none] at ht
        omega
      | some t =>
        have hkey : (n + 2) ∈ (mainTasks ap aw tf tt (processExtras ap aw extras).2).map Prod.fst := by
          simp only [mainTasks, List.map_cons, List.mem_cons]
          right
          right
          rw [show n + 2 = 2 + n from by omega]
          exact extrasTasks_mem_keys tf tt (processExtras ap aw extras).2 n 2 hn'
        have hm : (n + 2) ∈ order := hperm.mem_iff.mpr hkey
        have hl := lookup_completeTasks run
          (mainTasks ap aw tf tt (processExtras ap aw extras).2) order (n + 2) hm
        rw [mainTasks_lookup_extra ap aw tf tt (processExtras ap aw extras).2 n t ht] at hl
        rw [show 2 + n = n + 2 from by omega]
        have ht2 : (processExtras ap aw extras).2[n]? = some t := by
          rw [← List.get?_eq_getElem?]
          exact ht
        simp [tableRes, hl, directRes, ht2, fetch_events]
  rw [hres]

/-- Witness for C9 at concrete inputs: completion order 2, 0, 1 prints
the same as the direct run. -/
theorem print_order_deterministic_witness :
    mainRunOrdered ["fetch_events.py", "A", "B", "2026-01-01", "2026-01-02", "work:c1"]
        (pureRun (fun _ => "O")) [2, 0, 1]
      = mainRun ["fetch_events.py", "A", "B", "2026-01-01", "2026-01-02", "work:c1"]
          (pureRun (fun _ => "O")) :=
  print_order_deterministic "fetch_events.py" "A" "B" "2026-01-01" "2026-01-02"
    ["work:c1"] (pureRun (fun _ => "O")) [2, 0, 1] (by decide)

/-- C10: an extra specifier whose first colon is its last character is
accepted: its calendar id is empty, so the launched command omits the
calendar-id positional argument, and the printed marker is the literal
`===EXTRA:===`. -/
theorem empty_calendar_id_extra (p ap aw tf tt k : String)
    (f : List String → String) (h : ':' ∉ k.data) :
    mainRun (p :: ap :: aw :: tf :: tt :: [(k ++ ":")]) (pureRun f) =
      { stdoutItems := ["===PERSONAL===", f (fetch_events_cmd ap tf tt ""),
          "===WORK===", f (fetch_events_cmd aw tf tt ""),
          "===EXTRA:===", f (fetch_events_cmd (resolveAlias ap aw k) tf tt "")],
        stderrItems := [],
        exitCode := 0,
        launched := [fetch_events_cmd ap tf tt "",
          fetch_events_cmd aw tf tt "",
          fetch_events_cmd (resolveAlias ap aw k) tf tt ""],
        crashed := false }
    ∧ fetch_events_cmd (resolveAlias ap aw k) tf tt "" =
        ["gog", "calendar", "events", "--account", resolveAlias ap aw k,
         "--from", tf, "--to", tt, "--max", "50", "--json"] := by
  have hs : splitFirstColon (k ++ ":") = some (k, "") := by
    have h1 := splitFirstColon_append k "" h
    have h2 : k ++ ":" ++ "" = k ++ ":" := String.append_empty _
    rwa [h2] at h1
  have hpe : processExtras ap aw [k ++ ":"] = ([], [("", resolveAlias ap aw k)]) := by
    rw [processExtras_cons_some ap aw (k ++ ":") k "" [] hs]
    rfl
  refine ⟨?_, rfl⟩
  rw [mainRun_pure, hpe]
  simp [mainTasks, extrasTasks]

/-- Witness for C10 at concrete inputs. -/
theorem empty_calendar_id_extra_witness :
    mainRun ["fetch_events.py", "A", "B", "2026-01-01", "2026-01-02", "work" ++ ":"]
        (pureRun (fun _ => "OUT")) =
      { stdoutItems := ["===PERSONAL===",
          "OUT",
          "===WORK===",
          "OUT",
          "===EXTRA:===",
          "OUT"],
        stderrItems := [],
        exitCode := 0,
        launched := [fetch_events_cmd "A" "2026-01-01" "2026-01-02" "",
          fetch_events_cmd "B" "2026-01-01" "2026-01-02" "",
          fetch_events_cmd (resolveAlias "A" "B" "work") "2026-01-01" "2026-01-02" ""],
        crashed := false }
    ∧ fetch_events_cmd (resolveAlias "A" "B" "work") "2026-01-01" "2026-01-02" "" =
        ["gog", "calendar", "events", "--account", resolveAlias "A" "B" "work",
         "--from", "2026-01-01", "--to", "2026-01-02", "--max", "50", "--json"] :=
  empty_calendar_id_extra "fetch_events.py" "A" "B" "2026-01-01" "2026-01-02" "work"
    (fun _ => "OUT") (by decide)

end FetchEvents
